import Mathlib

/-!
# Verification of the fashion-flux preprocessing helpers

A shallow embedding, in Lean 4, of the tensor/image helper functions in
`src/style_transfer/utils.py` and of the remote-call request handlers in
`src/gradio_fronend.py`, together with theorems settling the specification
claims about them.

Modelling conventions:
* Python / numpy / torch floating-point scalars are modelled as exact
  rationals (`ℚ`); the claims under study are algebraic identities that the
  float code satisfies up to rounding, and exact rational arithmetic is the
  idealisation the spec's "within floating-point tolerance" refers to.
* A latent tensor (one batch element) is a list of channels, each channel a
  flat list of pixel values: `List (List ℚ)`.  Channel slicing
  `t[:, :4]` / `t[:, 4:]` becomes `List.take 4` / `List.drop 4`, and
  `torch.cat(..., dim=1)` becomes list append.
* The UNet forward pass `unet(noisy_latents, t, ehs).sample` is an opaque
  external network; its output tensor `pred` is passed in as a parameter.
* The per-timestep scalar `sqrt_one_minus_alphas_cumprod`
  (`(1 - alphas_cumprod[t]) ** 0.5` in the source) is passed in directly as
  a rational parameter, since the square root of a rational need not be
  rational; no claim depends on how it is computed from the schedule.
* The exponent `dream_detail_preservation` is modelled as a natural number:
  Python float `**` agrees exactly with `Monoid.npow` on natural exponents
  (in particular `x ** 0.0 = 1.0` for every float `x`, matching `x ^ 0 = 1`),
  and the claims only concern such exponents.
-/

/-- Elementwise operations on one latent channel (a flat list of pixels). -/
def chanAdd (x y : List ℚ) : List ℚ := List.zipWith (· + ·) x y

def chanSub (x y : List ℚ) : List ℚ := List.zipWith (· - ·) x y

/-- A latent tensor for one batch element: channels × pixels. -/
abbrev Latent := List (List ℚ)

/-- Elementwise addition of two latent tensors (`torch.Tensor.add`). -/
def latAdd (x y : Latent) : Latent := List.zipWith chanAdd x y

/-- Elementwise subtraction of two latent tensors. -/
def latSub (x y : Latent) : Latent := List.zipWith chanSub x y

/-- Multiplication of a latent tensor by a broadcast scalar
(`delta_noise.mul_(dream_lambda)` with a `(b,1,1,1)`-shaped factor). -/
def latScale (c : ℚ) (x : Latent) : Latent := x.map (List.map (c * ·))

/-- The two failure modes of `compute_dream_and_update_latents_for_inpaint`:
`NotImplementedError` for `"v_prediction"` and `ValueError` (carrying the
offending prediction-type string) for any other unknown string. -/
inductive DreamError where
  | notImplemented : DreamError
  | valueError : String → DreamError
deriving DecidableEq, Repr

/-- Shallow embedding of `compute_dream_and_update_latents_for_inpaint`
(src/style_transfer/utils.py, lines 17-70), for one batch element.

`sqrt_one_minus_alphas_cumprod` is the scalar
`(1.0 - alphas_cumprod[t]) ** 0.5`; `pred` is the (gradient-free) UNet
prediction `unet(noisy_latents, timesteps, encoder_hidden_states).sample`;
`predictionType` is `noise_scheduler.config.prediction_type`.  The Python
`raise` statements become the `Except` error branches. `.detach()` only
severs autograd tracking and is the identity on values. -/
def compute_dream_and_update_latents_for_inpaint
    (predictionType : String)
    (sqrt_one_minus_alphas_cumprod : ℚ)
    (noise noisy_latents target pred : Latent)
    (dream_detail_preservation : ℕ) :
    Except DreamError (Latent × Latent) :=
  -- dream_lambda = sqrt_one_minus_alphas_cumprod ** dream_detail_preservation
  let dream_lambda := sqrt_one_minus_alphas_cumprod ^ dream_detail_preservation
  -- noisy_latents_no_condition = noisy_latents[:, :4]
  let noisy_latents_no_condition := noisy_latents.take 4
  if predictionType = "epsilon" then
    -- delta_noise = (noise - predicted_noise).detach(); delta_noise.mul_(dream_lambda)
    let delta_noise := latScale dream_lambda (latSub noise pred)
    -- _noisy_latents = noisy_latents_no_condition.add(sqrt_one_minus_alphas_cumprod * delta_noise)
    let nl := latAdd noisy_latents_no_condition
      (latScale sqrt_one_minus_alphas_cumprod delta_noise)
    -- _target = target.add(delta_noise)
    let tg := latAdd target delta_noise
    -- _noisy_latents = torch.cat([_noisy_latents, noisy_latents[:, 4:]], dim=1)
    .ok (nl ++ noisy_latents.drop 4, tg)
  else if predictionType = "v_prediction" then
    .error .notImplemented
  else
    .error (.valueError predictionType)

/-- Multiplying a latent tensor by the scalar 1 is the identity. -/
theorem latScale_one (x : Latent) : latScale 1 x = x := by
  simp [latScale]

/-- Sanity check: the DREAM embedding evaluated at a concrete input. -/
example :
    compute_dream_and_update_latents_for_inpaint "epsilon" (1/2)
      [[1]] [[0]] [[0]] [[0]] 0 = .ok ([[(1:ℚ)/2]], [[1]]) := by
  simp [compute_dream_and_update_latents_for_inpaint, latAdd, latSub, latScale,
    chanAdd, chanSub]

/-- C1 counterexample: with `dream_detail_preservation = 0` the function does
NOT return `noisy_latents` and `target` unchanged.  Concretely, with
`sqrt(1-alpha_cumprod) = 1/2`, `noise = [[1]]`, `predicted noise = [[0]]`,
`noisy_latents = [[0]]`, `target = [[0]]`, the function returns
`([[1/2]], [[1]])`, not `([[0]], [[0]])`: Python `x ** 0` is `1`, so the
DREAM lambda collapses to 1, not 0, and the full delta is applied. -/
theorem dream_zero_preservation_changes_latents :
    compute_dream_and_update_latents_for_inpaint "epsilon" (1/2)
      [[1]] [[0]] [[0]] [[0]] 0 = .ok ([[(1:ℚ)/2]], [[1]]) ∧
    Except.ok ([[(1:ℚ)/2]], [[(1:ℚ)]]) ≠
      (.ok ([[(0:ℚ)]], [[(0:ℚ)]]) : Except DreamError (Latent × Latent)) := by
  constructor
  · simp [compute_dream_and_update_latents_for_inpaint, latAdd, latSub, latScale,
      chanAdd, chanSub]
  · intro h
    have := congrArg (fun e => match e with | Except.ok p => p.2 | _ => []) h
    simp at this

/-- C1 (amended): with `dream_detail_preservation = 0` and the `"epsilon"`
prediction type, the DREAM lambda is `sqrt(1-alpha_cumprod) ^ 0 = 1`, so the
function returns `noisy_latents` with its first four channels shifted by
`sqrt(1-alpha_cumprod) * (noise - predicted_noise)` and `target` shifted by
the full `noise - predicted_noise`; the inputs are returned unchanged only
when the prediction equals the true noise, not in general. -/
theorem dream_zero_preservation_applies_full_delta
    (s : ℚ) (noise noisy_latents target pred : Latent) :
    compute_dream_and_update_latents_for_inpaint "epsilon" s
      noise noisy_latents target pred 0 =
    .ok (latAdd (noisy_latents.take 4) (latScale s (latSub noise pred))
           ++ noisy_latents.drop 4,
         latAdd target (latSub noise pred)) := by
  simp [compute_dream_and_update_latents_for_inpaint, pow_zero, latScale_one]

/-- C2: for the `"epsilon"` prediction type, with
`lambda = sqrt(1-alpha_cumprod) ^ dream_detail_preservation` and
`delta = lambda * (noise - predicted_noise)`, the function returns the first
four (non-conditioning) channels of `noisy_latents` shifted by
`sqrt(1-alpha_cumprod) * delta` re-concatenated with the remaining
conditioning channels unchanged, and `target` shifted by `delta`. -/
theorem dream_epsilon_formula
    (s : ℚ) (noise noisy_latents target pred : Latent) (p : ℕ) :
    compute_dream_and_update_latents_for_inpaint "epsilon" s
      noise noisy_latents target pred p =
    .ok (latAdd (noisy_latents.take 4)
           (latScale s (latScale (s ^ p) (latSub noise pred)))
           ++ noisy_latents.drop 4,
         latAdd target (latScale (s ^ p) (latSub noise pred))) := by
  simp [compute_dream_and_update_latents_for_inpaint]

/-- C3: `compute_dream_and_update_latents_for_inpaint` succeeds for the
`"epsilon"` prediction type, fails with `NotImplementedError` exactly for
`"v_prediction"`, and fails with `ValueError` (carrying the unknown string)
for every other prediction type. -/
theorem dream_prediction_type_errors
    (pt : String) (s : ℚ) (noise noisy_latents target pred : Latent) (p : ℕ) :
    (pt = "epsilon" → ∃ out,
      compute_dream_and_update_latents_for_inpaint pt s
        noise noisy_latents target pred p = .ok out) ∧
    (pt = "v_prediction" →
      compute_dream_and_update_latents_for_inpaint pt s
        noise noisy_latents target pred p = .error .notImplemented) ∧
    (pt ≠ "epsilon" ∧ pt ≠ "v_prediction" →
      compute_dream_and_update_latents_for_inpaint pt s
        noise noisy_latents target pred p = .error (.valueError pt)) := by
  refine ⟨fun h => ?_, fun h => ?_, fun h => ?_⟩
  · subst h
    exact ⟨_, dream_epsilon_formula s noise noisy_latents target pred p⟩
  · subst h
    simp [compute_dream_and_update_latents_for_inpaint]
  · simp [compute_dream_and_update_latents_for_inpaint, h.1, h.2]

/-- C3 witness: the three branches of `dream_prediction_type_errors`
instantiated at concrete inputs. -/
theorem dream_prediction_type_errors_witness :
    (∃ out, compute_dream_and_update_latents_for_inpaint "epsilon" 1
      [[1]] [[0]] [[0]] [[0]] 1 = .ok out) ∧
    compute_dream_and_update_latents_for_inpaint "v_prediction" 1
      [[1]] [[0]] [[0]] [[0]] 1 = .error .notImplemented ∧
    compute_dream_and_update_latents_for_inpaint "sample" 1
      [[1]] [[0]] [[0]] [[0]] 1 = .error (.valueError "sample") :=
  ⟨(dream_prediction_type_errors "epsilon" 1 [[1]] [[0]] [[0]] [[0]] 1).1 rfl,
   (dream_prediction_type_errors "v_prediction" 1 [[1]] [[0]] [[0]] [[0]] 1).2.1 rfl,
   (dream_prediction_type_errors "sample" 1 [[1]] [[0]] [[0]] [[0]] 1).2.2
     ⟨by decide, by decide⟩⟩

/-- First in-place pass of the mask binarization:
`mask_image[mask_image < 0.5] = 0`, as a pointwise map. -/
def binLt (x : ℚ) : ℚ := if x < 1/2 then 0 else x

/-- Second in-place pass of the mask binarization:
`mask_image[mask_image >= 0.5] = 1`, as a pointwise map. -/
def binGe (x : ℚ) : ℚ := if 1/2 ≤ x then 1 else x

/-- The two binarization passes in source order: first values below 0.5 are
zeroed, then values at or above 0.5 are set to 1 (a value the first pass
zeroed is below 0.5 and is not touched again). -/
def binarize (x : ℚ) : ℚ := binGe (binLt x)

/-- Binarization of a 2-D grid of values. -/
def binarizeGrid (g : List (List ℚ)) : List (List ℚ) :=
  g.map (List.map binarize)

/-- The accepted inputs of `prepare_mask_image`, one constructor per branch
of the source.  A single PIL mask or single ndarray is wrapped into a
singleton list by the source (`mask_image = [mask_image]`), so the PIL and
ndarray constructors carry the resulting list. -/
inductive MaskInput where
  /-- `torch.Tensor` of ndim 2: one `(h, w)` mask. -/
  | tensor2 (m : List (List ℚ)) : MaskInput
  /-- `torch.Tensor` of ndim 3: `(1, h, w)` single mask or `(b, h, w)` batch,
  disambiguated by the leading dimension. -/
  | tensor3 (m : List (List (List ℚ))) : MaskInput
  /-- list of PIL masks; each converts via `convert("L")` to an `(h, w)` grid
  of 8-bit grayscale values. -/
  | pil (ms : List (List (List ℕ))) : MaskInput
  /-- list of `(h, w)` float ndarrays. -/
  | ndarray (ms : List (List (List ℚ))) : MaskInput

/-- Shallow embedding of `prepare_mask_image`
(src/style_transfer/utils.py, lines 201-235), value-level: the result is a
`(b, c, h, w)` tensor as nested lists.  `unsqueeze` adds a singleton list
layer; `np.concatenate([... [None, None, :] ...], axis=0)` stacks `(h, w)`
grids into a `(b, 1, h, w)` tensor.  Only the PIL branch rescales by
`1/255` before thresholding; the tensor and ndarray branches threshold the
raw values. -/
def prepare_mask_image : MaskInput → List (List (List (List ℚ)))
  | .tensor2 m =>
      -- mask_image.unsqueeze(0).unsqueeze(0), then binarize
      [[binarizeGrid m]]
  | .tensor3 m =>
      if m.length = 1 then
        -- single mask with an existing batch size of 1: unsqueeze(0)
        [m.map binarizeGrid]
      else
        -- batch of masks: unsqueeze(1)
        m.map (fun s => [binarizeGrid s])
  | .pil ms =>
      -- np.array(m.convert("L"))[None, None, :], concatenated on axis 0,
      -- then .astype(np.float32) / 255.0, then binarize
      ms.map (fun m =>
        [binarizeGrid (m.map (List.map (fun v : ℕ => (v : ℚ) / 255)))])
  | .ndarray ms =>
      -- m[None, None, :] concatenated on axis 0, then binarize (no rescale)
      ms.map (fun m => [binarizeGrid m])

/-- Every binarized value is exactly 0 or exactly 1. -/
theorem binarize_eq_zero_or_one (x : ℚ) : binarize x = 0 ∨ binarize x = 1 := by
  unfold binarize binGe binLt
  split <;> split <;> simp_all

/-- Every element of a binarized grid is exactly 0 or exactly 1. -/
theorem binarizeGrid_mem (g : List (List ℚ)) :
    ∀ row ∈ binarizeGrid g, ∀ x ∈ row, x = 0 ∨ x = 1 := by
  intro row hrow x hx
  simp only [binarizeGrid, List.mem_map] at hrow
  obtain ⟨r, -, rfl⟩ := hrow
  simp only [List.mem_map] at hx
  obtain ⟨y, -, rfl⟩ := hx
  exact binarize_eq_zero_or_one y

/-- C4: every element of the tensor returned by `prepare_mask_image` is
exactly 0 or exactly 1, for every accepted input form; and the binarization
rule maps a value to 0 exactly when the value compared against the 0.5
threshold is below it, and to 1 exactly when it is at or above it. -/
theorem prepare_mask_image_binary (input : MaskInput) :
    (∀ batch ∈ prepare_mask_image input, ∀ chan ∈ batch,
      ∀ row ∈ chan, ∀ x ∈ row, x = 0 ∨ x = 1) ∧
    (∀ x : ℚ, (binarize x = 0 ↔ x < 1/2) ∧ (binarize x = 1 ↔ 1/2 ≤ x)) := by
  constructor
  · intro batch hb chan hc
    cases input with
    | tensor2 m =>
        simp only [prepare_mask_image, List.mem_singleton] at hb
        subst hb
        simp only [List.mem_singleton] at hc
        subst hc
        exact binarizeGrid_mem m
    | tensor3 m =>
        simp only [prepare_mask_image] at hb
        split at hb
        · simp only [List.mem_singleton] at hb
          subst hb
          simp only [List.mem_map] at hc
          obtain ⟨s, -, rfl⟩ := hc
          exact binarizeGrid_mem s
        · simp only [List.mem_map] at hb
          obtain ⟨s, -, rfl⟩ := hb
          simp only [List.mem_singleton] at hc
          subst hc
          exact binarizeGrid_mem s
    | pil ms =>
        simp only [prepare_mask_image, List.mem_map] at hb
        obtain ⟨m, -, rfl⟩ := hb
        simp only [List.mem_singleton] at hc
        subst hc
        exact binarizeGrid_mem _
    | ndarray ms =>
        simp only [prepare_mask_image, List.mem_map] at hb
        obtain ⟨m, -, rfl⟩ := hb
        simp only [List.mem_singleton] at hc
        subst hc
        exact binarizeGrid_mem m
  · intro x
    unfold binarize binGe binLt
    constructor
    · split <;> split <;> simp_all
      linarith
    · split <;> split <;> simp_all
      linarith

/-- An RGB image as used by `repaint_result`: rows of `(r, g, b)` pixels,
each channel an 8-bit value. -/
abbrev RGBImage := List (List (ℕ × ℕ × ℕ))

/-- A single-channel mask image: rows of 8-bit values. -/
abbrev GrayImage := List (List ℕ)

/-- Conversion of a numpy float to `uint8` by `.astype(np.uint8)`: truncate
toward zero and wrap modulo 256.  All values this development feeds to it
are nonnegative, where truncation toward zero coincides with the floor. -/
def npUint8 (x : ℚ) : ℕ := (⌊x⌋).toNat % 256

/-- One channel of the compositing rule of `repaint_result`:
`result * mask + person * (1 - mask)` with the mask value rescaled from
`[0, 255]` to `[0, 1]`, then cast back to `uint8`. -/
def blendChannel (m : ℕ) (r p : ℕ) : ℕ :=
  npUint8 ((r : ℚ) * ((m : ℚ) / 255) + (p : ℚ) * (1 - (m : ℚ) / 255))

/-- One RGB pixel of the compositing rule: the mask value is broadcast over
the three channels (`np.expand_dims(mask, axis=2)`). -/
def blendPixel (m : ℕ) (r p : ℕ × ℕ × ℕ) : ℕ × ℕ × ℕ :=
  (blendChannel m r.1 p.1, blendChannel m r.2.1 p.2.1, blendChannel m r.2.2 p.2.2)

/-- Shallow embedding of `repaint_result`
(src/style_transfer/utils.py, lines 171-178): elementwise
`result * mask + person * (1 - mask)` over the three arrays, followed by
`astype(np.uint8)`. -/
def repaint_result (result person : RGBImage) (mask : GrayImage) : RGBImage :=
  List.zipWith3
    (fun rRow pRow mRow =>
      List.zipWith3 (fun r p m => blendPixel m r p) rRow pRow mRow)
    result person mask

/-- A mask of the same shape as an image, with every pixel a constant. -/
def constantMask (im : RGBImage) (v : ℕ) : GrayImage :=
  im.map (List.map (fun _ => v))

/-- `npUint8` is the identity on 8-bit naturals. -/
theorem npUint8_natCast (n : ℕ) (h : n < 256) : npUint8 (n : ℚ) = n := by
  simp [npUint8, Nat.mod_eq_of_lt h]

/-- A mask value of 255 selects the result channel. -/
theorem blendChannel_255 (r p : ℕ) (h : r < 256) : blendChannel 255 r p = r := by
  unfold blendChannel
  norm_num
  exact npUint8_natCast r h

/-- A mask value of 0 selects the person channel. -/
theorem blendChannel_0 (r p : ℕ) (h : p < 256) : blendChannel 0 r p = p := by
  unfold blendChannel
  norm_num
  exact npUint8_natCast p h

/-- A mask value of 255 selects the result pixel. -/
theorem blendPixel_255 (r p : ℕ × ℕ × ℕ)
    (h : r.1 < 256 ∧ r.2.1 < 256 ∧ r.2.2 < 256) : blendPixel 255 r p = r := by
  unfold blendPixel
  rw [blendChannel_255 _ _ h.1, blendChannel_255 _ _ h.2.1, blendChannel_255 _ _ h.2.2]

/-- A mask value of 0 selects the person pixel. -/
theorem blendPixel_0 (r p : ℕ × ℕ × ℕ)
    (h : p.1 < 256 ∧ p.2.1 < 256 ∧ p.2.2 < 256) : blendPixel 0 r p = p := by
  unfold blendPixel
  rw [blendChannel_0 _ _ h.1, blendChannel_0 _ _ h.2.1, blendChannel_0 _ _ h.2.2]

/-- Row-level version of the all-255 case. -/
theorem blendRow_255 (rs : List (ℕ × ℕ × ℕ)) :
    ∀ ps : List (ℕ × ℕ × ℕ), ps.length = rs.length →
    (∀ px ∈ rs, px.1 < 256 ∧ px.2.1 < 256 ∧ px.2.2 < 256) →
    List.zipWith3 (fun r p m => blendPixel m r p) rs ps (rs.map fun _ => 255)
      = rs := by
  induction rs with
  | nil => intro ps _ _; cases ps <;> rfl
  | cons r rs ih =>
    intro ps hl hb
    cases ps with
    | nil => simp at hl
    | cons p ps =>
      simp only [List.map_cons, List.zipWith3]
      rw [blendPixel_255 r p (hb r (by simp)), ih ps (by simpa using hl)
        (fun px hpx => hb px (List.mem_cons_of_mem r hpx))]

/-- Row-level version of the all-0 case. -/
theorem blendRow_0 (rs : List (ℕ × ℕ × ℕ)) :
    ∀ ps : List (ℕ × ℕ × ℕ), ps.length = rs.length →
    (∀ px ∈ ps, px.1 < 256 ∧ px.2.1 < 256 ∧ px.2.2 < 256) →
    List.zipWith3 (fun r p m => blendPixel m r p) rs ps (rs.map fun _ => 0)
      = ps := by
  induction rs with
  | nil => intro ps hl _; cases ps with
    | nil => rfl
    | cons p ps => simp at hl
  | cons r rs ih =>
    intro ps hl hb
    cases ps with
    | nil => simp at hl
    | cons p ps =>
      simp only [List.map_cons, List.zipWith3]
      rw [blendPixel_0 r p (hb p (by simp)), ih ps (by simpa using hl)
        (fun px hpx => hb px (List.mem_cons_of_mem p hpx))]

/-- C5: for images of equal size with 8-bit channel values, `repaint_result`
with an all-255 mask returns the result image pixel for pixel, and with an
all-0 mask returns the person image pixel for pixel. -/
theorem repaint_result_extreme_masks (result person : RGBImage)
    (hdim : List.Forall₂ (fun a b => a.length = b.length) person result)
    (hres : ∀ row ∈ result, ∀ px ∈ row, px.1 < 256 ∧ px.2.1 < 256 ∧ px.2.2 < 256)
    (hper : ∀ row ∈ person, ∀ px ∈ row, px.1 < 256 ∧ px.2.1 < 256 ∧ px.2.2 < 256) :
    repaint_result result person (constantMask result 255) = result ∧
    repaint_result result person (constantMask result 0) = person := by
  constructor
  · unfold repaint_result constantMask
    induction hdim with
    | nil => rfl
    | @cons pRow rRow P R hlen htail ih =>
      simp only [List.map_cons, List.zipWith3]
      rw [blendRow_255 rRow pRow hlen (hres rRow (by simp)),
        ih (fun row hrow => hres row (List.mem_cons_of_mem rRow hrow))
           (fun row hrow => hper row (List.mem_cons_of_mem pRow hrow))]
  · unfold repaint_result constantMask
    induction hdim with
    | nil => rfl
    | @cons pRow rRow P R hlen htail ih =>
      simp only [List.map_cons, List.zipWith3]
      rw [blendRow_0 rRow pRow hlen (hper pRow (by simp)),
        ih (fun row hrow => hres row (List.mem_cons_of_mem rRow hrow))
           (fun row hrow => hper row (List.mem_cons_of_mem pRow hrow))]

/-- C5 witness: `repaint_result_extreme_masks` at a concrete pair of 1-pixel
images. -/
theorem repaint_result_extreme_masks_witness :
    repaint_result [[(10, 20, 30)]] [[(1, 2, 3)]]
      (constantMask [[(10, 20, 30)]] 255) = [[(10, 20, 30)]] ∧
    repaint_result [[(10, 20, 30)]] [[(1, 2, 3)]]
      (constantMask [[(10, 20, 30)]] 0) = [[(1, 2, 3)]] :=
  repaint_result_extreme_masks [[(10, 20, 30)]] [[(1, 2, 3)]]
    (List.Forall₂.cons rfl List.Forall₂.nil) (by decide) (by decide)

/-- A channel-last image as `prepare_image` receives it from PIL or numpy:
rows of `(r, g, b)` float values (`np.array(i.convert("RGB"))` yields 8-bit
integers; a raw ndarray may hold arbitrary floats). -/
abbrev CLImage := List (List (ℚ × ℚ × ℚ))

/-- The `(0, 3, 1, 2)` transpose restricted to one batch element: turn a
channel-last `(h, w, 3)` image into a channel-first `(3, h, w)` tensor. -/
def toChannelFirst (im : CLImage) : List (List (List ℚ)) :=
  [im.map (List.map (fun px => px.1)),
   im.map (List.map (fun px => px.2.1)),
   im.map (List.map (fun px => px.2.2))]

/-- The `prepare_image` rescaling `pixel / 127.5 - 1.0`. -/
def scaleChan (x : ℚ) : ℚ := x / 127.5 - 1

/-- The accepted inputs of `prepare_image`, one constructor per branch of
the source.  A single PIL image or single ndarray is wrapped into a
singleton list by the source (`image = [image]`), so those constructors
carry the resulting list. -/
inductive ImageInput where
  /-- `torch.Tensor` of ndim 3: one `(c, h, w)` image. -/
  | tensor3 (t : List (List (List ℚ))) : ImageInput
  /-- `torch.Tensor` of ndim 4: an already batched `(b, c, h, w)` tensor. -/
  | tensor4 (t : List (List (List (List ℚ)))) : ImageInput
  /-- list of PIL images, each converted to a channel-last RGB array. -/
  | pil (ims : List CLImage) : ImageInput
  /-- list of channel-last `(h, w, 3)` ndarrays. -/
  | ndarray (ims : List CLImage) : ImageInput

/-- Shallow embedding of `prepare_image`
(src/style_transfer/utils.py, lines 181-198).  The torch branch only adds a
batch dimension for an ndim-3 tensor and casts to float (the identity on
the rational values); the PIL and ndarray branches stack the images into a
`(b, h, w, 3)` array, transpose it to `(b, 3, h, w)` and rescale every
value by `/ 127.5 - 1.0`. -/
def prepare_image : ImageInput → List (List (List (List ℚ)))
  | .tensor3 t => [t]
  | .tensor4 t => t
  | .pil ims =>
      ims.map (fun im => (toChannelFirst im).map (List.map (List.map scaleChan)))
  | .ndarray ims =>
      ims.map (fun im => (toChannelFirst im).map (List.map (List.map scaleChan)))

/-- C6 counterexample: a torch tensor input is NOT rescaled.  The 1-pixel,
1-channel tensor holding 255 comes back holding 255, not
`255 / 127.5 - 1 = 1` as the claimed mapping would give. -/
theorem prepare_image_tensor_not_scaled :
    prepare_image (ImageInput.tensor3 [[[(255 : ℚ)]]]) = [[[[(255 : ℚ)]]]] ∧
    prepare_image (ImageInput.tensor3 [[[(255 : ℚ)]]]) ≠ [[[[scaleChan 255]]]] := by
  constructor
  · rfl
  · have h : scaleChan 255 = 1 := by norm_num [scaleChan]
    rw [h]
    simp [prepare_image]

/-- C6 (amended): `prepare_image` returns a channel-first batched float
tensor; for PIL or ndarray inputs every pixel value is rescaled to
`[-1, 1]` via `pixel / 127.5 - 1.0` (equivalently, the output is the
channel-first transpose of the pixelwise rescaled images), while for torch
tensor inputs it only adds a batch dimension when needed and casts to
float, leaving the values unscaled. -/
theorem prepare_image_spec :
    (∀ t, prepare_image (.tensor3 t) = [t]) ∧
    (∀ t, prepare_image (.tensor4 t) = t) ∧
    (∀ ims, prepare_image (.pil ims) =
      ims.map (fun im => toChannelFirst (im.map (List.map
        (fun px => (scaleChan px.1, scaleChan px.2.1, scaleChan px.2.2)))))) ∧
    (∀ ims, prepare_image (.ndarray ims) =
      ims.map (fun im => toChannelFirst (im.map (List.map
        (fun px => (scaleChan px.1, scaleChan px.2.1, scaleChan px.2.2)))))) := by
  refine ⟨fun t => rfl, fun t => rfl, fun ims => ?_, fun ims => ?_⟩ <;>
    simp [prepare_image, toChannelFirst, List.map_map, Function.comp]

/-- The diagonal Gaussian posterior returned by the external VAE encoder
(`vae.encode(pixel_values).latent_dist` in diffusers): a mean and a
standard deviation per latent element, as flat lists. -/
structure LatentDist where
  mean : List ℚ
  std : List ℚ

/-- An explicit model of the torch global random generator, which
`latent_dist.sample()` consumes when called without an explicit generator:
an infinite stream of standard-normal draws and a cursor into it. -/
structure TorchRng where
  stream : ℕ → ℚ
  pos : ℕ

/-- `latent_dist.sample()`: `mean + std * eps` with `eps` drawn fresh from
the global generator, which advances by one draw per latent element. -/
def sampleLatentDist (d : LatentDist) (rng : TorchRng) : List ℚ × TorchRng :=
  (List.zipWith3 (fun m s e => m + s * e) d.mean d.std
     ((List.range d.mean.length).map (fun i => rng.stream (rng.pos + i))),
   ⟨rng.stream, rng.pos + d.mean.length⟩)

/-- A frozen VAE: a deterministic map from pixel values to the latent
posterior, plus the `config.scaling_factor` constant. -/
structure VAEModel where
  encode : List ℚ → LatentDist
  scaling_factor : ℚ

/-- Shallow embedding of `compute_vae_encodings`
(src/style_transfer/utils.py, lines 99-113).  The memory-format, device and
dtype conversions are the identity on values; `torch.no_grad()` disables
autograd only, not the randomness of `.sample()`, so the global generator
state is threaded through explicitly. -/
def compute_vae_encodings (image : List ℚ) (vae : VAEModel) (rng : TorchRng) :
    List ℚ × TorchRng :=
  let latent_dist := vae.encode image
  let sampled := sampleLatentDist latent_dist rng
  -- model_input = model_input * vae.config.scaling_factor
  (sampled.1.map (· * vae.scaling_factor), sampled.2)

/-- C7 counterexample: `compute_vae_encodings` is not deterministic across
calls.  With an encoder whose posterior has nonzero standard deviation,
calling twice in a row on the same image (the global generator having
advanced in between, as it does in the source, which passes no fixed
generator to `.sample()`) returns different latents. -/
theorem compute_vae_encodings_not_deterministic :
    (compute_vae_encodings [5] ⟨fun _ => ⟨[0], [1]⟩, 1⟩ ⟨fun i => (i : ℚ), 0⟩).1 ≠
    (compute_vae_encodings [5] ⟨fun _ => ⟨[0], [1]⟩, 1⟩
      (compute_vae_encodings [5] ⟨fun _ => ⟨[0], [1]⟩, 1⟩ ⟨fun i => (i : ℚ), 0⟩).2).1 := by
  simp [compute_vae_encodings, sampleLatentDist, List.range_succ]

/-- Pointwise zero standard deviation makes the sample collapse to the
mean, whatever the noise draws are. -/
theorem zipWith3_sample_std_zero (mean : List ℚ) :
    ∀ std eps : List ℚ, std.length = mean.length → eps.length = mean.length →
    (∀ s ∈ std, s = 0) →
    List.zipWith3 (fun m s e => m + s * e) mean std eps = mean := by
  induction mean with
  | nil => intro std eps h1 _ _; cases std <;> rfl
  | cons m ms ih =>
    intro std eps h1 h2 hz
    cases std with
    | nil => simp at h1
    | cons s ss =>
      cases eps with
      | nil => simp at h2
      | cons e es =>
        simp only [List.zipWith3]
        rw [hz s (by simp), ih ss es (by simpa using h1) (by simpa using h2)
          (fun x hx => hz x (List.mem_cons_of_mem s hx))]
        ring_nf

/-- With a degenerate posterior the encoding does not depend on the
generator state: it is the mean scaled by the scaling factor. -/
theorem compute_vae_encodings_std_zero (image : List ℚ) (vae : VAEModel)
    (rng : TorchRng)
    (hlen : (vae.encode image).std.length = (vae.encode image).mean.length)
    (hstd : ∀ s ∈ (vae.encode image).std, s = 0) :
    (compute_vae_encodings image vae rng).1 =
      (vae.encode image).mean.map (· * vae.scaling_factor) := by
  simp only [compute_vae_encodings, sampleLatentDist]
  rw [zipWith3_sample_std_zero _ _ _ hlen (by simp) hstd]

/-- C7 (amended): `compute_vae_encodings` returns the sampled latent
multiplied by the scaling factor of the encoder configuration, and it is
deterministic across repeated calls only under an additional assumption the
spec left implicit: the posterior must be degenerate (zero standard
deviation) — or, equivalently, the generator state must be restored between
calls.  Under zero standard deviation, a second call on the same image
right after the first returns the same latent. -/
theorem compute_vae_encodings_spec (image : List ℚ) (vae : VAEModel) (rng : TorchRng)
    (hlen : (vae.encode image).std.length = (vae.encode image).mean.length)
    (hstd : ∀ s ∈ (vae.encode image).std, s = 0) :
    (compute_vae_encodings image vae rng).1 =
      (sampleLatentDist (vae.encode image) rng).1.map (· * vae.scaling_factor) ∧
    (compute_vae_encodings image vae
        (compute_vae_encodings image vae rng).2).1 =
      (compute_vae_encodings image vae rng).1 := by
  exact ⟨rfl, (compute_vae_encodings_std_zero image vae _ hlen hstd).trans
    (compute_vae_encodings_std_zero image vae rng hlen hstd).symm⟩

/-- C7 witness: `compute_vae_encodings_spec` at a concrete degenerate
encoder. -/
theorem compute_vae_encodings_spec_witness :
    (compute_vae_encodings [5] ⟨fun _ => ⟨[3], [0]⟩, 2⟩ ⟨fun i => (i : ℚ), 0⟩).1 =
      (sampleLatentDist (VAEModel.encode ⟨fun _ => ⟨[3], [0]⟩, 2⟩ [5])
        ⟨fun i => (i : ℚ), 0⟩).1.map
        (· * VAEModel.scaling_factor ⟨fun _ => ⟨[3], [0]⟩, 2⟩) ∧
    (compute_vae_encodings [5] ⟨fun _ => ⟨[3], [0]⟩, 2⟩
        (compute_vae_encodings [5] ⟨fun _ => ⟨[3], [0]⟩, 2⟩ ⟨fun i => (i : ℚ), 0⟩).2).1 =
      (compute_vae_encodings [5] ⟨fun _ => ⟨[3], [0]⟩, 2⟩ ⟨fun i => (i : ℚ), 0⟩).1 :=
  compute_vae_encodings_spec [5] ⟨fun _ => ⟨[3], [0]⟩, 2⟩ ⟨fun i => (i : ℚ), 0⟩
    rfl (by simp)

/-- A PIL image: a size plus a total pixel map (PIL fills reads outside the
canvas, so totality is harmless for the properties at stake). -/
structure PImage where
  width : ℕ
  height : ℕ
  pixel : ℕ → ℕ → ℕ × ℕ × ℕ

/-- A resampling filter (`Image.LANCZOS`): given the source image and the
target dimensions, the resampled pixel map.  The geometric claims hold for
every filter, so it is a parameter. -/
abbrev Resample := PImage → ℕ → ℕ → ℕ → ℕ → ℕ × ℕ × ℕ

/-- `image.resize(size, filter)`: an image of exactly the requested size
with resampled content. -/
def pilResize (f : Resample) (im : PImage) (size : ℕ × ℕ) : PImage :=
  ⟨size.1, size.2, fun x y => f im size.1 size.2 x y⟩

/-- `image.crop((l, t, r, b))`: a `(r - l, b - t)` window into the image. -/
def pilCrop (im : PImage) (l t r b : ℕ) : PImage :=
  ⟨r - l, b - t, fun x y => im.pixel (l + x) (t + y)⟩

/-- `Image.new("RGB", size, color)`: a constant image. -/
def pilNew (size : ℕ × ℕ) (color : ℕ × ℕ × ℕ) : PImage :=
  ⟨size.1, size.2, fun _ _ => color⟩

/-- `base.paste(im, (ox, oy))`: the pasted rectangle reads from `im`, the
rest of the canvas keeps `base`. -/
def pilPaste (base im : PImage) (ox oy : ℕ) : PImage :=
  ⟨base.width, base.height, fun x y =>
    if ox ≤ x ∧ x < ox + im.width ∧ oy ≤ y ∧ y < oy + im.height then
      im.pixel (x - ox) (y - oy)
    else base.pixel x y⟩

/-- The crop-box dimensions `(new_w, new_h)` chosen by `resize_and_crop`:
keep the dimension whose ratio already matches, shrink the other by
floor division (`//`).  The ratio comparison `w / h < target_w / target_h`
is Python float division, modelled as exact rational comparison. -/
def cropFit (w h target_w target_h : ℕ) : ℕ × ℕ :=
  if (w : ℚ) / (h : ℚ) < (target_w : ℚ) / (target_h : ℚ) then
    (w, w * target_h / target_w)
  else
    (h * target_w / target_h, h)

/-- Shallow embedding of `resize_and_crop`
(src/style_transfer/utils.py, lines 350-365): center-crop to the target
aspect ratio with floor-division offsets, then resize to the target size. -/
def resize_and_crop (f : Resample) (im : PImage) (size : ℕ × ℕ) : PImage :=
  let new_w := (cropFit im.width im.height size.1 size.2).1
  let new_h := (cropFit im.width im.height size.1 size.2).2
  let cropped := pilCrop im ((im.width - new_w) / 2) ((im.height - new_h) / 2)
    ((im.width + new_w) / 2) ((im.height + new_h) / 2)
  pilResize f cropped size

/-- The fitted dimensions `(new_w, new_h)` chosen by `resize_and_padding`:
scale to fit inside the target box, preserving aspect ratio, with floor
division. -/
def paddingFit (w h target_w target_h : ℕ) : ℕ × ℕ :=
  if (w : ℚ) / (h : ℚ) < (target_w : ℚ) / (target_h : ℚ) then
    (w * target_h / h, target_h)
  else
    (target_w, h * target_w / w)

/-- Shallow embedding of `resize_and_padding`
(src/style_transfer/utils.py, lines 368-382): resize to fit inside the
target box, then paste centrally onto a white canvas of the target size. -/
def resize_and_padding (f : Resample) (im : PImage) (size : ℕ × ℕ) : PImage :=
  let new_w := (paddingFit im.width im.height size.1 size.2).1
  let new_h := (paddingFit im.width im.height size.1 size.2).2
  let resized := pilResize f im (new_w, new_h)
  let padding := pilNew size (255, 255, 255)
  pilPaste padding resized ((size.1 - new_w) / 2) ((size.2 - new_h) / 2)

/-- C8: both geometric helpers return an image of exactly the requested
dimensions for every input image and every resampling filter, and every
pixel of the padded image outside the centrally pasted resized rectangle is
white. -/
theorem resize_and_crop_padding_sizes (f : Resample) (im : PImage) (tw th : ℕ) :
    (resize_and_crop f im (tw, th)).width = tw ∧
    (resize_and_crop f im (tw, th)).height = th ∧
    (resize_and_padding f im (tw, th)).width = tw ∧
    (resize_and_padding f im (tw, th)).height = th ∧
    (∀ x y : ℕ,
      ¬((tw - (paddingFit im.width im.height tw th).1) / 2 ≤ x ∧
        x < (tw - (paddingFit im.width im.height tw th).1) / 2 +
          (paddingFit im.width im.height tw th).1 ∧
        (th - (paddingFit im.width im.height tw th).2) / 2 ≤ y ∧
        y < (th - (paddingFit im.width im.height tw th).2) / 2 +
          (paddingFit im.width im.height tw th).2) →
      (resize_and_padding f im (tw, th)).pixel x y = (255, 255, 255)) := by
  refine ⟨rfl, rfl, rfl, rfl, fun x y hout => ?_⟩
  simp only [resize_and_padding, pilPaste, pilResize, pilNew]
  exact if_neg hout

/-- C8 witness: `resize_and_crop_padding_sizes` at a concrete 4×2 image,
target size 2×2 and a constant filter; the pixel `(0, 1)` lies below the
pasted 2×1 rectangle and is white. -/
theorem resize_and_crop_padding_sizes_witness :
    (resize_and_crop (fun _ _ _ _ _ => (0, 0, 0)) ⟨4, 2, fun _ _ => (1, 2, 3)⟩
      (2, 2)).width = 2 ∧
    (resize_and_crop (fun _ _ _ _ _ => (0, 0, 0)) ⟨4, 2, fun _ _ => (1, 2, 3)⟩
      (2, 2)).height = 2 ∧
    (resize_and_padding (fun _ _ _ _ _ => (0, 0, 0)) ⟨4, 2, fun _ _ => (1, 2, 3)⟩
      (2, 2)).width = 2 ∧
    (resize_and_padding (fun _ _ _ _ _ => (0, 0, 0)) ⟨4, 2, fun _ _ => (1, 2, 3)⟩
      (2, 2)).height = 2 ∧
    (resize_and_padding (fun _ _ _ _ _ => (0, 0, 0)) ⟨4, 2, fun _ _ => (1, 2, 3)⟩
      (2, 2)).pixel 0 1 = (255, 255, 255) := by
  obtain ⟨h1, h2, h3, h4, h5⟩ := resize_and_crop_padding_sizes
    (fun _ _ _ _ _ => (0, 0, 0)) ⟨4, 2, fun _ _ => (1, 2, 3)⟩ 2 2
  exact ⟨h1, h2, h3, h4, h5 0 1 (by norm_num [paddingFit])⟩

/-- The response to a remote inference POST as the two request handlers in
`src/gradio_fronend.py` consume it: the HTTP status code, the raw body text
(`response.text`), and the base64 payload fields of the decoded JSON body
when present. -/
structure HttpResponse where
  status_code : ℕ
  text : String
  masked_image : String
  result_image : String
  result_pose : String

/-- Shallow embedding of the response handling of `submit_function`
(src/gradio_fronend.py, lines 56-69).  `decode` stands for
`Image.open(io.BytesIO(base64.b64decode(...)))`; the raise becomes the
error branch carrying the `RuntimeError` message. -/
def submit_function {α : Type} (decode : String → α) (resp : HttpResponse) :
    Except String (α × α) :=
  if resp.status_code = 200 then
    .ok (decode resp.masked_image, decode resp.result_image)
  else
    .error ("API error " ++ toString resp.status_code ++ ": " ++ resp.text)

/-- Shallow embedding of the response handling of `pose_transfer_function`
(src/gradio_fronend.py, lines 90-104). -/
def pose_transfer_function {α : Type} (decode : String → α) (resp : HttpResponse) :
    Except String α :=
  if resp.status_code = 200 then
    .ok (decode resp.result_pose)
  else
    .error ("API error " ++ toString resp.status_code ++ ": " ++ resp.text)

/-- C9: both remote-call handlers return the decoded image(s) without
raising exactly when the HTTP status is 200, and for any other status raise
an error whose message embeds the status code and the response body. -/
theorem remote_call_status_handling {α : Type} (decode : String → α)
    (resp : HttpResponse) :
    (resp.status_code = 200 →
      submit_function decode resp =
        .ok (decode resp.masked_image, decode resp.result_image) ∧
      pose_transfer_function decode resp = .ok (decode resp.result_pose)) ∧
    (resp.status_code ≠ 200 →
      submit_function decode resp =
        .error ("API error " ++ toString resp.status_code ++ ": " ++ resp.text) ∧
      pose_transfer_function decode resp =
        .error ("API error " ++ toString resp.status_code ++ ": " ++ resp.text)) := by
  constructor
  · intro h
    constructor <;> simp [submit_function, pose_transfer_function, h]
  · intro h
    constructor <;> simp [submit_function, pose_transfer_function, h]

/-- C9 witness: `remote_call_status_handling` at a success response and at a
404 response. -/
theorem remote_call_status_handling_witness :
    (submit_function (fun s => s) ⟨200, "", "m64", "r64", "p64"⟩ =
      .ok ("m64", "r64") ∧
     pose_transfer_function (fun s => s) ⟨200, "", "m64", "r64", "p64"⟩ =
      .ok "p64") ∧
    (submit_function (fun s => s) ⟨404, "not found", "", "", ""⟩ =
      .error ("API error " ++ toString 404 ++ ": " ++ "not found") ∧
     pose_transfer_function (fun s => s) ⟨404, "not found", "", "", ""⟩ =
      .error ("API error " ++ toString 404 ++ ": " ++ "not found")) :=
  ⟨(remote_call_status_handling (fun s => s) ⟨200, "", "m64", "r64", "p64"⟩).1 rfl,
   (remote_call_status_handling (fun s => s) ⟨404, "not found", "", "", ""⟩).2
     (by decide)⟩

/-- The torch storage heap: every storage id maps to a flat element buffer.
`unsqueeze` returns a new tensor object that is a view sharing the storage
of its base, so reshaping never allocates a new buffer here. -/
structure TorchHeap where
  buffers : ℕ → List ℚ

/-- A torch tensor as a reference: which storage buffer it views.  The shape
metadata the `unsqueeze` calls rearrange is irrelevant to the storage
mutation under study and is omitted. -/
structure TensorRef where
  storage : ℕ

/-- An in-place masked assignment: replace the buffer of one storage id by a
pointwise-updated version, leaving all other buffers untouched. -/
def heapUpdate (h : TorchHeap) (i : ℕ) (f : List ℚ → List ℚ) : TorchHeap :=
  ⟨fun j => if j = i then f (h.buffers j) else h.buffers j⟩

/-- Shallow embedding of the `torch.Tensor` branch of `prepare_mask_image`
(src/style_transfer/utils.py, lines 202-217), with the storage heap
explicit.  The `unsqueeze` calls produce views that keep the argument's
storage id, and the two masked index assignments
(`mask_image[mask_image < 0.5] = 0`, then `mask_image[mask_image >= 0.5] = 1`)
update that shared storage in place.  The function returns the reshaped
view (same storage) together with the mutated heap. -/
def prepare_mask_image_tensor_branch (heap : TorchHeap) (t : TensorRef) :
    TensorRef × TorchHeap :=
  let heap1 := heapUpdate heap t.storage (List.map binLt)
  let heap2 := heapUpdate heap1 t.storage (List.map binGe)
  (⟨t.storage⟩, heap2)

/-- C10: after `prepare_mask_image` on a torch tensor, the buffer behind the
caller's argument holds the binarized values, the returned tensor still
views that same storage, and the heap is genuinely changed for a tensor
holding the 8-bit values `[0, 200]` — the function is not side-effect-free
on tensor inputs. -/
theorem prepare_mask_image_mutates_tensor_argument (heap : TorchHeap) (t : TensorRef) :
    (prepare_mask_image_tensor_branch heap t).2.buffers t.storage =
      (heap.buffers t.storage).map binarize ∧
    (prepare_mask_image_tensor_branch heap t).1.storage = t.storage ∧
    (prepare_mask_image_tensor_branch ⟨fun _ => [0, 200]⟩ ⟨0⟩).2.buffers ≠
      (fun _ => [0, 200]) := by
  refine ⟨?_, rfl, ?_⟩
  · simp [prepare_mask_image_tensor_branch, heapUpdate, binarize, Function.comp]
  · intro h
    have h0 := congrFun h 0
    simp [prepare_mask_image_tensor_branch, heapUpdate, binarize, binLt, binGe] at h0
    norm_num at h0
